import Mathlib

/-!
Verification of the RateYourMusic album extractor
(`catalog/sites/rateyourmusic.py`).

The development shallowly embeds the module's pure logic:

* the adapter contract `id_to_url` / `url_to_id` (including the regex
  used by `url_to_id`, modelled character by character);
* the extraction core `_extract_from_html`, embedded as `extract_from_html`:
  the parsed document is an oracle from the eight query expressions used by
  the code to either a raised exception or a list of matched strings, the
  external collaborators `detect_language` (repository code outside this
  module) and `dateparser.parse` (third-party) are parameters, and the
  single try/except block of the source is modelled with an `Except`
  short-circuit that carries the partially-populated local state into the
  handler, exactly as Python keeps already-assigned locals.

Python specifics kept by the embedding: truthiness of lists and strings
(non-emptiness), `str.strip` (modelled over ASCII whitespace),
`str.split(sep, 1)`, local variables that may be unbound when the except
handler runs (an `Option` whose `none` triggers the `NameError` path when
read after the try block).
-/

namespace RYM

/-! ## Python string primitives -/

/-- Whitespace as stripped by `str.strip()` (modelled over the ASCII
whitespace characters; no claim depends on the wider Unicode set). -/
def pyWs (c : Char) : Bool :=
  c == ' ' || c == '\t' || c == '\n' || c == '\r'

/-- `str.strip()` on the character list: drop leading and trailing
whitespace. -/
def stripChars (l : List Char) : List Char :=
  ((l.dropWhile pyWs).reverse.dropWhile pyWs).reverse

/-- `str.strip()`. -/
def pyStrip (s : String) : String :=
  ⟨stripChars s.data⟩

/-- Boolean list-prefix test (used to model substring search). -/
def isPref : List Char → List Char → Bool
  | [], _ => true
  | _ :: _, [] => false
  | a :: as, b :: bs => a == b && isPref as bs

/-- Split a character list at the first occurrence of `pat`, returning the
parts before and after it; `none` when `pat` does not occur.  Models
both the Python test `pat in s` (occurrence) and `s.split(pat, 1)`. -/
def splitFirst (pat : List Char) : List Char → Option (List Char × List Char)
  | [] => none
  | c :: cs =>
    if isPref pat (c :: cs) then some ([], (c :: cs).drop pat.length)
    else
      match splitFirst pat cs with
      | some (pre, post) => some (c :: pre, post)
      | none => none

/-- `s.split(sep, 1)` when `sep` occurs in `s` (the `some` case); `none`
models `sep not in s`. -/
def pySplitOnce (sep s : String) : Option (String × String) :=
  (splitFirst sep.data s.data).map fun p => (⟨p.1⟩, ⟨p.2⟩)

/-! ## Adapter contract: identifier and URL

`id_to_url` is the f-string of the source; `url_to_id` applies the regex
search with pattern: the literal host/path, then a lazy one-or-more group,
then an optional slash, anchored at the end; the captured group then has
its trailing slashes stripped. -/

/-- The literal part of the regex in `url_to_id` (the host and album path,
with the escaped dot made literal). -/
def patChars : List Char :=
  ['r','a','t','e','y','o','u','r','m','u','s','i','c','.','c','o','m',
   '/','r','e','l','e','a','s','e','/','a','l','b','u','m','/']

/-- `id_to_url`: prepend the album URL prefix and append a slash. -/
def id_to_url (id_value : String) : String :=
  "https://rateyourmusic.com/release/album/" ++ id_value ++ "/"

/-- `re.search` of the `url_to_id` pattern: scan left to right for the
first position where the literal matches and at least one character
follows (the lazy group needs one); return the text after the literal. -/
def searchFrom : List Char → Option (List Char)
  | [] => none
  | c :: cs =>
    if isPref patChars (c :: cs) && !((c :: cs).drop patChars.length).isEmpty
    then some ((c :: cs).drop patChars.length)
    else searchFrom cs

/-- The lazy group of the pattern: the shortest non-empty group such that
the rest of the string matches an optional slash then the end, so exactly
one trailing slash is excluded from the group when the remainder ends with
one and the group stays non-empty. -/
def lazyGroup (rest : List Char) : List Char :=
  if 2 ≤ rest.length ∧ rest.getLast? = some '/' then rest.dropLast else rest

/-- `.rstrip(slash)`: drop every trailing slash. -/
def rstripSlash (l : List Char) : List Char :=
  (l.reverse.dropWhile (· == '/')).reverse

/-- `url_to_id`: regex search, then the captured group with trailing
slashes stripped; `None` when the pattern does not match. -/
def url_to_id (url : String) : Option String :=
  (searchFrom url.data).map fun rest => ⟨rstripSlash (lazyGroup rest)⟩

/-- A character matched by the character class of the URL patterns:
word character or hyphen (word characters modelled as ASCII
alphanumerics plus underscore). -/
def wordChar (c : Char) : Bool :=
  c.isAlphanum || c == '_' || c == '-'

/-- A slug segment: non-empty, only word characters and hyphens. -/
def wordSeg (s : List Char) : Prop :=
  s ≠ [] ∧ ∀ c ∈ s, wordChar c = true

/-- The canonical identifier shape: two or three slash-joined slug
segments, no leading or trailing slash. -/
def canonicalId (i : String) : Prop :=
  (∃ a b, wordSeg a ∧ wordSeg b ∧ i.data = a ++ '/' :: b) ∨
  (∃ a b c, wordSeg a ∧ wordSeg b ∧ wordSeg c ∧
    i.data = a ++ '/' :: b ++ '/' :: c)

/-! ### Round-trip lemmas -/

theorem isPref_append_self : ∀ (l t : List Char), isPref l (l ++ t) = true := by
  intro l t
  induction l with
  | nil => rfl
  | cons a as ih => simp [isPref, ih]

theorem searchFrom_skip (c : Char) (cs : List Char) (h : c ≠ 'r') :
    searchFrom (c :: cs) = searchFrom cs := by
  have hbeq : ('r' == c) = false := beq_eq_false_iff_ne.mpr fun he => h he.symm
  have hpref : isPref patChars (c :: cs) = false := by
    simp only [patChars, isPref, hbeq, Bool.false_and]
  simp only [searchFrom, hpref, Bool.false_and, Bool.false_eq_true, if_false]

theorem searchFrom_cons (c : Char) (cs : List Char) :
    searchFrom (c :: cs) =
      if isPref patChars (c :: cs) && !((c :: cs).drop patChars.length).isEmpty
      then some ((c :: cs).drop patChars.length)
      else searchFrom cs := rfl

theorem searchFrom_here (rest : List Char) (h : rest ≠ []) :
    searchFrom (patChars ++ rest) = some rest := by
  have hdrop : (patChars ++ rest).drop patChars.length = rest :=
    List.drop_left patChars rest
  have hsplit : patChars ++ rest = 'r' :: (patChars.tail ++ rest) := rfl
  rw [hsplit, searchFrom_cons, ← hsplit, isPref_append_self, hdrop]
  simp [List.isEmpty_iff, h]

theorem dropLast_append_single (l : List Char) (a : Char) :
    (l ++ [a]).dropLast = l := by
  simp

theorem getLastQ_append_single (l : List Char) (a : Char) :
    (l ++ [a]).getLast? = some a := by
  simp

theorem rstripSlash_no_slash (l : List Char) (a : Char) (h : a ≠ '/') :
    rstripSlash (l ++ [a]) = l ++ [a] := by
  unfold rstripSlash
  rw [List.reverse_append]
  simp only [List.reverse_cons, List.reverse_nil, List.nil_append,
    List.singleton_append, List.dropWhile_cons]
  have : (a == '/') = false := by simpa using h
  simp [this]

theorem exists_concat_of_ne_nil {α : Type} :
    ∀ (l : List α), l ≠ [] → ∃ l' a, l = l' ++ [a]
  | [], h => absurd rfl h
  | [a], _ => ⟨[], a, rfl⟩
  | a :: b :: t, _ => by
    obtain ⟨l', x, hx⟩ := exists_concat_of_ne_nil (b :: t) (by simp)
    exact ⟨a :: l', x, by simp [hx]⟩

theorem canonical_concat {i : String} (h : canonicalId i) :
    ∃ l x, i.data = l ++ [x] ∧ wordChar x = true := by
  rcases h with ⟨a, b, _, hb, hi⟩ | ⟨a, b, c, _, _, hc, hi⟩
  · obtain ⟨b', x, hbx⟩ := exists_concat_of_ne_nil b hb.1
    refine ⟨a ++ '/' :: b', x, ?_, hb.2 x (by simp [hbx])⟩
    simp [hi, hbx]
  · obtain ⟨c', x, hcx⟩ := exists_concat_of_ne_nil c hc.1
    refine ⟨a ++ '/' :: b ++ '/' :: c', x, ?_, hc.2 x (by simp [hcx])⟩
    simp [hi, hcx]

theorem id_to_url_data (i : String) :
    (id_to_url i).data =
      'h' :: 't' :: 't' :: 'p' :: 's' :: ':' :: '/' :: '/' ::
        (patChars ++ (i.data ++ ['/'])) := by
  cases i with
  | mk l =>
    show (String.mk _).data = _
    simp [id_to_url, String.data, patChars]

theorem wordChar_ne_slash {x : Char} (h : wordChar x = true) : x ≠ '/' := by
  intro he
  subst he
  simp [wordChar] at h

/-- Claim C2: for every identifier of the canonical shape
(two or three slash-joined word/hyphen segments, no leading or trailing
slash), `url_to_id` applied to `id_to_url` of the identifier returns it
unchanged. -/
theorem c2_url_id_roundtrip (i : String) (h : canonicalId i) :
    url_to_id (id_to_url i) = some i := by
  obtain ⟨l, x, hconcat, hword⟩ := canonical_concat h
  have hxs : x ≠ '/' := wordChar_ne_slash hword
  unfold url_to_id
  rw [id_to_url_data i]
  rw [searchFrom_skip _ _ (by decide), searchFrom_skip _ _ (by decide),
    searchFrom_skip _ _ (by decide), searchFrom_skip _ _ (by decide),
    searchFrom_skip _ _ (by decide), searchFrom_skip _ _ (by decide),
    searchFrom_skip _ _ (by decide), searchFrom_skip _ _ (by decide)]
  rw [searchFrom_here (i.data ++ ['/']) (by simp)]
  have hlg : lazyGroup (i.data ++ ['/']) = i.data := by
    unfold lazyGroup
    rw [if_pos]
    · exact dropLast_append_single i.data '/'
    · constructor
      · rw [hconcat]
        simp [List.length_append]
      · exact getLastQ_append_single i.data '/'
  have hrs : rstripSlash i.data = i.data := by
    rw [hconcat]
    exact rstripSlash_no_slash l x hxs
  show some (String.mk (rstripSlash (lazyGroup (i.data ++ ['/'])))) = some i
  rw [hlg, hrs]

/-- Witness for C2: the round-trip at a concrete two-segment identifier. -/
theorem c2_url_id_roundtrip_witness :
    url_to_id (id_to_url "miles-davis/kind-of-blue") =
      some "miles-davis/kind-of-blue" :=
  c2_url_id_roundtrip "miles-davis/kind-of-blue"
    (Or.inl ⟨"miles-davis".data, "kind-of-blue".data,
      ⟨by decide, by decide⟩, ⟨by decide, by decide⟩, by decide⟩)

/-! ## Data model of the extraction core -/

/-- A language-tagged string, the dict with keys lang and text built at the
localized title and description sites. -/
structure LocalizedText where
  lang : String
  text : String
deriving DecidableEq, Repr

/-- A metadata value: Python None, a string, a non-negative integer, a list
of strings, or a list of localized texts. -/
inductive Value where
  | vnull : Value
  | vstr : String → Value
  | vint : Nat → Value
  | vlist : List String → Value
  | vlt : List LocalizedText → Value
deriving DecidableEq, Repr

/-- The metadata dict of the ResourceContent, keys in insertion order. -/
abbrev Metadata : Type := List (String × Value)

/-- A date as returned by the permissive parser collaborator. -/
structure PyDate where
  year : Nat
  month : Nat
  day : Nat
deriving DecidableEq, Repr

/-- Zero-pad a number to two digits, as strftime does for month and day. -/
def pad2 (n : Nat) : String :=
  if n < 10 then "0" ++ toString n else toString n

/-- Zero-pad a number to four digits, as strftime does for the year. -/
def pad4 (n : Nat) : String :=
  if n < 10 then "000" ++ toString n
  else if n < 100 then "00" ++ toString n
  else if n < 1000 then "0" ++ toString n
  else toString n

/-- The strftime format string with year, month, day joined by hyphens. -/
def fmtDate (d : PyDate) : String :=
  pad4 d.year ++ "-" ++ pad2 d.month ++ "-" ++ pad2 d.day

/-- The eight query expressions evaluated by the source against the parsed
document, one constructor per xpath call site, in source order: the
og:title meta query, the page-title text query, the og:image meta query,
the artist anchors query, the release-date cells query, the genre anchors
query, the tracklist titles query, and the og:description meta query. -/
inductive Query where
  | titleOg | pageTitle | imageOg | artistQ | dateQ | genreQ | trackQ | descQ
deriving DecidableEq, Repr

/-- A parsed document, borrowed by the pipeline: evaluating a query either
raises (modelled by `Except.error`) or yields the matched strings in
document order. -/
def Doc : Type := Query → Except Unit (List String)

/-- A document none of whose query evaluations raises. -/
def pureDoc (ls : Query → List String) : Doc := fun q => .ok (ls q)

/-- The local variables of the extraction function.  `title` and `lang`
are `none` while the corresponding Python local is still unbound. -/
structure ExtractState where
  title : Option String
  lang : Option String
  localized_title : List LocalizedText
  localized_desc : List LocalizedText
  artist : List String
  genre : List String
  release_date : Option String
  track_list : List String
  image_url : Option String
  duration : Nat
deriving DecidableEq, Repr

/-- The initializers at the top of the extraction function. -/
def initState : ExtractState :=
  { title := none, lang := none, localized_title := [], localized_desc := [],
    artist := [], genre := [], release_date := none, track_list := [],
    image_url := none, duration := 0 }

/-- Modelled from the spec: the uniqueness helper over LocalizedText
collections (`uniq`, from a module not present under src/): dedup by exact
(language, text) pair, first occurrence wins, order otherwise preserved. -/
def uniqAux (seen : List LocalizedText) : List LocalizedText → List LocalizedText
  | [] => []
  | x :: xs => if x ∈ seen then uniqAux seen xs else x :: uniqAux (x :: seen) xs

/-- Modelled from the spec: `uniq` on a LocalizedText collection. -/
def uniq (l : List LocalizedText) : List LocalizedText :=
  uniqAux [] l

/-- Python list(set(strings)).  CPython iterates a set in an unspecified,
hash-determined order; the model deduplicates keeping first occurrences,
and no verified statement depends on the order of the result. -/
def pySetList : List String → List String
  | [] => []
  | x :: xs => if x ∈ xs then pySetList xs else x :: pySetList xs

/-- The list comprehension pattern used for artist, genre, date and track
matches: strip every match and discard the ones that are blank after
stripping. -/
def cleanList (es : List String) : List String :=
  (es.map pyStrip).filter (· ≠ "")

/-! ## The extraction steps

Each step evaluates one query (or two for the title) and updates the local
state; a raised exception is `Except.error` carrying the locals as
assigned so far, so that binding the steps with the `Except` monad is the
single try block of the source: the first error skips every later step and
the handler resumes with the carried state. -/

/-- Title extraction: first the og:title meta query; a match in the
artist-dash-album format is split at the first separator into artist and
album title, otherwise the whole match is the title; with no match the
page-title query is tried, and with no match there either the title is the
literal Unknown Album.  The derived title is then language-tagged and
appended to the localized titles. -/
def step_title (detect : String → String) (doc : Doc) (st0 : ExtractState) :
    Except ExtractState ExtractState :=
  match doc Query.titleOg with
  | .error _ => .error st0
  | .ok title_elem =>
    let r : Except ExtractState (ExtractState × String) :=
      match title_elem with
      | title_text :: _ =>
        match pySplitOnce " - " title_text with
        | some p =>
          .ok ({ st0 with artist := st0.artist ++ [pyStrip p.1] }, pyStrip p.2)
        | none => .ok (st0, pyStrip title_text)
      | [] =>
        match doc Query.pageTitle with
        | .error _ => .error st0
        | .ok (t :: _) => .ok (st0, pyStrip t)
        | .ok [] => .ok (st0, "Unknown Album")
    match r with
    | .error s => .error s
    | .ok (st, title) =>
      .ok { st with
        title := some title,
        lang := some (detect title),
        localized_title := st.localized_title ++ [⟨detect title, title⟩] }

/-- Cover image: first og:image match, unmodified. -/
def step_image (doc : Doc) (st : ExtractState) :
    Except ExtractState ExtractState :=
  match doc Query.imageOg with
  | .error _ => .error st
  | .ok (u :: _) => .ok { st with image_url := some u }
  | .ok [] => .ok st

/-- Artist anchors: only when the query matched and the artist list is
still empty; matches are stripped and blanks discarded. -/
def step_artist (doc : Doc) (st : ExtractState) :
    Except ExtractState ExtractState :=
  match doc Query.artistQ with
  | .error _ => .error st
  | .ok artist_elems =>
    if artist_elems ≠ [] ∧ st.artist = [] then
      .ok { st with artist := cleanList artist_elems }
    else .ok st

/-- Release date: when the query matched, the stripped non-blank fragments
are joined with single spaces and handed to the permissive parser; a
successful parse is formatted as year-month-day. -/
def step_date (dparse : String → Option PyDate) (doc : Doc)
    (st : ExtractState) : Except ExtractState ExtractState :=
  match doc Query.dateQ with
  | .error _ => .error st
  | .ok date_elems =>
    if date_elems ≠ [] then
      match dparse (String.intercalate " " (cleanList date_elems)) with
      | some dt => .ok { st with release_date := some (fmtDate dt) }
      | none => .ok st
    else .ok st

/-- Genre anchors: when the query matched, matches are stripped and blanks
discarded (possibly leaving an empty list). -/
def step_genre (doc : Doc) (st : ExtractState) :
    Except ExtractState ExtractState :=
  match doc Query.genreQ with
  | .error _ => .error st
  | .ok genre_elems =>
    if genre_elems ≠ [] then
      .ok { st with genre := cleanList genre_elems }
    else .ok st

/-- Track titles: when the query matched, matches are stripped and blanks
discarded, keeping document order. -/
def step_tracks (doc : Doc) (st : ExtractState) :
    Except ExtractState ExtractState :=
  match doc Query.trackQ with
  | .error _ => .error st
  | .ok track_elems =>
    if track_elems ≠ [] then
      .ok { st with track_list := cleanList track_elems }
    else .ok st

/-- Description: the first og:description match is stripped and, when
non-blank, appended to the localized descriptions tagged with the language
code stored in the lang local, the one detected from the title.  Reading
lang while unbound would raise a NameError inside the try block, modelled
by the error case. -/
def step_desc (doc : Doc) (st : ExtractState) :
    Except ExtractState ExtractState :=
  match doc Query.descQ with
  | .error _ => .error st
  | .ok (d :: _) =>
    if pyStrip d ≠ "" then
      match st.lang with
      | some lang =>
        .ok { st with localized_desc := st.localized_desc ++ [⟨lang, pyStrip d⟩] }
      | none => .error st
    else .ok st
  | .ok [] => .ok st

/-- The body of the try block: the seven steps in source order, bound in
the `Except` monad so the first raised exception skips the rest. -/
def tryBody (detect : String → String) (dparse : String → Option PyDate)
    (doc : Doc) (st : ExtractState) : Except ExtractState ExtractState := do
  let s1 ← step_title detect doc st
  let s2 ← step_image doc s1
  let s3 ← step_artist doc s2
  let s4 ← step_date dparse doc s3
  let s5 ← step_genre doc s4
  let s6 ← step_tracks doc s5
  step_desc doc s6

/-- The except handler: a caught exception resumes with the locals as they
were at the raise site. -/
def outState : Except ExtractState ExtractState → ExtractState
  | .ok s => s
  | .error s => s

/-- Ordinal-prefixed newline-joined rendering of the track list. -/
def renderTracks (track_list : List String) : String :=
  String.intercalate "\n"
    (track_list.enum.map fun p => toString (p.1 + 1) ++ ". " ++ p.2)

/-- The metadata dict literal of the ResourceContent call, entry by entry,
with the title local already read successfully. -/
def mdOf (st : ExtractState) (title : String) : Metadata :=
  [("title", .vstr (if title ≠ "" then title else "Unknown Album")),
    ("localized_title", .vlt (if st.localized_title ≠ [] then
      uniq st.localized_title else [⟨"en", "Unknown Album"⟩])),
    ("localized_description", .vlt (uniq st.localized_desc)),
    ("artist", .vlist (if st.artist ≠ [] then pySetList st.artist else [])),
    ("genre", .vlist (if st.genre ≠ [] then pySetList st.genre else [])),
    ("release_date", match st.release_date with
      | some d => .vstr d | none => .vnull),
    ("track_list", if st.track_list ≠ [] then
      .vstr (renderTracks st.track_list) else .vnull),
    ("duration", if st.duration > 0 then .vint st.duration else .vnull),
    ("cover_image_url", match st.image_url with
      | some u => .vstr u | none => .vnull)]

/-- The ResourceContent metadata built after the try block.  Reading the
title local raises a NameError when it was never assigned (possible when
the og:title query raised): that error is outside any try block, so the
whole call fails, the `Except.error` case. -/
def assemble (st : ExtractState) : Except Unit Metadata :=
  match st.title with
  | none => .error ()
  | some title => .ok (mdOf st title)

/-- The extraction entry point `_extract_from_html`: run the try body from
the initial locals, recover from a caught exception with the carried
state, then build the metadata. -/
def extract_from_html (detect : String → String)
    (dparse : String → Option PyDate) (doc : Doc) : Except Unit Metadata :=
  assemble (outState (tryBody detect dparse doc initState))

/-! ## Exact characterizations of the steps

Each lemma rewrites one step under a hypothesis about the outcome of its
query, into an explicit state update.  The update formulas below are read
off the corresponding step. -/

/-- The title derived from an og:title match. -/
def titleOfText (t : String) : String :=
  match pySplitOnce " - " t with
  | some p => pyStrip p.2
  | none => pyStrip t

/-- The artist-list update performed while deriving the title. -/
def artistOfText (old : List String) (t : String) : List String :=
  match pySplitOnce " - " t with
  | some p => old ++ [pyStrip p.1]
  | none => old

/-- The image update from the og:image matches. -/
def imgUpd (old : Option String) : List String → Option String
  | u :: _ => some u
  | [] => old

/-- The artist update from the artist-anchor matches. -/
def artUpd (old : List String) (es : List String) : List String :=
  if es ≠ [] ∧ old = [] then cleanList es else old

/-- The release-date update from the date matches. -/
def dateUpd (dparse : String → Option PyDate) (old : Option String)
    (es : List String) : Option String :=
  if es ≠ [] then
    match dparse (String.intercalate " " (cleanList es)) with
    | some dt => some (fmtDate dt)
    | none => old
  else old

/-- The genre update from the genre-anchor matches. -/
def genreUpd (old : List String) (es : List String) : List String :=
  if es ≠ [] then cleanList es else old

/-- The localized-description update from the og:description matches,
tagged with the given language code. -/
def descUpd (lang : String) (old : List LocalizedText) :
    List String → List LocalizedText
  | d :: _ => if pyStrip d ≠ "" then old ++ [⟨lang, pyStrip d⟩] else old
  | [] => old

theorem step_title_cons (detect : String → String) (doc : Doc)
    (s : ExtractState) (t : String) (ts : List String)
    (h : doc Query.titleOg = .ok (t :: ts)) :
    step_title detect doc s = .ok { s with
      artist := artistOfText s.artist t,
      title := some (titleOfText t),
      lang := some (detect (titleOfText t)),
      localized_title :=
        s.localized_title ++ [⟨detect (titleOfText t), titleOfText t⟩] } := by
  unfold step_title titleOfText artistOfText
  rw [h]
  cases hs : pySplitOnce " - " t <;> simp [hs]

theorem step_title_nilnil (detect : String → String) (doc : Doc)
    (s : ExtractState) (h1 : doc Query.titleOg = .ok [])
    (h2 : doc Query.pageTitle = .ok []) :
    step_title detect doc s = .ok { s with
      title := some "Unknown Album",
      lang := some (detect "Unknown Album"),
      localized_title := s.localized_title ++
        [⟨detect "Unknown Album", "Unknown Album"⟩] } := by
  unfold step_title
  rw [h1, h2]

theorem step_title_nilcons (detect : String → String) (doc : Doc)
    (s : ExtractState) (t : String) (ts : List String)
    (h1 : doc Query.titleOg = .ok []) (h2 : doc Query.pageTitle = .ok (t :: ts)) :
    step_title detect doc s = .ok { s with
      title := some (pyStrip t),
      lang := some (detect (pyStrip t)),
      localized_title := s.localized_title ++
        [⟨detect (pyStrip t), pyStrip t⟩] } := by
  unfold step_title
  rw [h1, h2]

theorem step_image_eq (doc : Doc) (s : ExtractState) (xs : List String)
    (h : doc Query.imageOg = .ok xs) :
    step_image doc s = .ok { s with image_url := imgUpd s.image_url xs } := by
  unfold step_image imgUpd
  rw [h]
  cases xs <;> simp

theorem step_artist_eq (doc : Doc) (s : ExtractState) (xs : List String)
    (h : doc Query.artistQ = .ok xs) :
    step_artist doc s = .ok { s with artist := artUpd s.artist xs } := by
  simp only [step_artist, artUpd, h]
  split <;> simp

theorem step_date_eq (dparse : String → Option PyDate) (doc : Doc)
    (s : ExtractState) (xs : List String) (h : doc Query.dateQ = .ok xs) :
    step_date dparse doc s =
      .ok { s with release_date := dateUpd dparse s.release_date xs } := by
  simp only [step_date, dateUpd, h]
  split
  · cases hd : dparse (String.intercalate " " (cleanList xs)) <;> simp [hd]
  · simp

theorem step_date_err (dparse : String → Option PyDate) (doc : Doc)
    (s : ExtractState) (e : Unit) (h : doc Query.dateQ = .error e) :
    step_date dparse doc s = .error s := by
  simp only [step_date, h]

theorem step_genre_eq (doc : Doc) (s : ExtractState) (xs : List String)
    (h : doc Query.genreQ = .ok xs) :
    step_genre doc s = .ok { s with genre := genreUpd s.genre xs } := by
  simp only [step_genre, genreUpd, h]
  split <;> simp

theorem step_tracks_eq (doc : Doc) (s : ExtractState) (xs : List String)
    (h : doc Query.trackQ = .ok xs) :
    step_tracks doc s = .ok { s with track_list := genreUpd s.track_list xs } := by
  simp only [step_tracks, genreUpd, h]
  split <;> simp

theorem step_desc_eq (doc : Doc) (s : ExtractState) (xs : List String)
    (lang : String) (h : doc Query.descQ = .ok xs) (hl : s.lang = some lang) :
    step_desc doc s = .ok { s with
      localized_desc := descUpd lang s.localized_desc xs } := by
  cases xs with
  | nil => simp [step_desc, descUpd, h]
  | cons d ds =>
    by_cases hb : pyStrip d = ""
    · simp [step_desc, descUpd, h, hb]
    · simp [step_desc, descUpd, h, hb, hl]

theorem ok_bind {α β γ : Type} (a : β) (f : β → Except α γ) :
    (Except.ok a >>= f) = f a := rfl

theorem err_bind {α β γ : Type} (e : α) (f : β → Except α γ) :
    (Except.error e >>= f) = Except.error e := rfl

/-! ## Frame lemmas

Each step leaves every local it does not assign unchanged, whether it
returns normally or raises; stated by equating the resulting state with an
update of the incoming one confined to the assigned fields. -/

theorem frame_title (detect : String → String) (doc : Doc) (s : ExtractState) :
    outState (step_title detect doc s) = { s with
      title := (outState (step_title detect doc s)).title,
      lang := (outState (step_title detect doc s)).lang,
      localized_title := (outState (step_title detect doc s)).localized_title,
      artist := (outState (step_title detect doc s)).artist } := by
  cases h : doc Query.titleOg with
  | error e => simp [step_title, outState, h]
  | ok l =>
    cases l with
    | cons t ts =>
      cases hs : pySplitOnce " - " t <;> simp [step_title, outState, h, hs]
    | nil =>
      cases h2 : doc Query.pageTitle with
      | error e => simp [step_title, outState, h, h2]
      | ok l2 => cases l2 <;> simp [step_title, outState, h, h2]

theorem frame_image (doc : Doc) (s : ExtractState) :
    outState (step_image doc s) =
      { s with image_url := (outState (step_image doc s)).image_url } := by
  cases h : doc Query.imageOg with
  | error e => simp [step_image, outState, h]
  | ok l => cases l <;> simp [step_image, outState, h]

theorem frame_artist (doc : Doc) (s : ExtractState) :
    outState (step_artist doc s) =
      { s with artist := (outState (step_artist doc s)).artist } := by
  cases h : doc Query.artistQ with
  | error e => simp [step_artist, outState, h]
  | ok l =>
    by_cases hc : l ≠ [] ∧ s.artist = [] <;> simp [step_artist, outState, h, hc]

theorem frame_date (dparse : String → Option PyDate) (doc : Doc)
    (s : ExtractState) :
    outState (step_date dparse doc s) = { s with
      release_date := (outState (step_date dparse doc s)).release_date } := by
  cases h : doc Query.dateQ with
  | error e => simp [step_date, outState, h]
  | ok l =>
    by_cases hc : l ≠ []
    · cases hd : dparse (String.intercalate " " (cleanList l)) <;>
        simp [step_date, outState, h, hc, hd]
    · simp [step_date, outState, h, hc]

theorem frame_genre (doc : Doc) (s : ExtractState) :
    outState (step_genre doc s) =
      { s with genre := (outState (step_genre doc s)).genre } := by
  cases h : doc Query.genreQ with
  | error e => simp [step_genre, outState, h]
  | ok l => by_cases hc : l ≠ [] <;> simp [step_genre, outState, h, hc]

theorem frame_tracks (doc : Doc) (s : ExtractState) :
    outState (step_tracks doc s) =
      { s with track_list := (outState (step_tracks doc s)).track_list } := by
  cases h : doc Query.trackQ with
  | error e => simp [step_tracks, outState, h]
  | ok l => by_cases hc : l ≠ [] <;> simp [step_tracks, outState, h, hc]

theorem frame_desc (doc : Doc) (s : ExtractState) :
    outState (step_desc doc s) = { s with
      localized_desc := (outState (step_desc doc s)).localized_desc } := by
  cases h : doc Query.descQ with
  | error e => simp [step_desc, outState, h]
  | ok l =>
    cases l with
    | nil => simp [step_desc, outState, h]
    | cons d ds =>
      by_cases hb : pyStrip d = ""
      · simp [step_desc, outState, h, hb]
      · cases hl : s.lang with
        | none =>
          simp [step_desc, outState, h, hb, hl]
          rw [← hl]
        | some lg => simp [step_desc, outState, h, hb, hl]

/-- A predicate on the locals survives a bind in the try block when it
holds after the first part and each possible continuation preserves it;
an exception in the first part skips the continuation entirely. -/
theorem keeps_bind {P : ExtractState → Prop}
    {e : Except ExtractState ExtractState}
    {f : ExtractState → Except ExtractState ExtractState}
    (he : P (outState e)) (hf : ∀ s, P s → P (outState (f s))) :
    P (outState (e >>= f)) := by
  cases e with
  | error s => exact he
  | ok s => exact hf s he

/-- A predicate on the locals holding after the title step and preserved
by each later step holds after the whole try block, wherever an exception
interrupts it. -/
theorem keeps_tryBody (P : ExtractState → Prop) (detect : String → String)
    (dparse : String → Option PyDate) (doc : Doc) (st : ExtractState)
    (h0 : P (outState (step_title detect doc st)))
    (himg : ∀ s, P s → P (outState (step_image doc s)))
    (hart : ∀ s, P s → P (outState (step_artist doc s)))
    (hdat : ∀ s, P s → P (outState (step_date dparse doc s)))
    (hgen : ∀ s, P s → P (outState (step_genre doc s)))
    (htrk : ∀ s, P s → P (outState (step_tracks doc s)))
    (hdsc : ∀ s, P s → P (outState (step_desc doc s))) :
    P (outState (tryBody detect dparse doc st)) := by
  unfold tryBody
  exact keeps_bind h0 fun s1 hs1 =>
    keeps_bind (himg s1 hs1) fun s2 hs2 =>
      keeps_bind (hart s2 hs2) fun s3 hs3 =>
        keeps_bind (hdat s3 hs3) fun s4 hs4 =>
          keeps_bind (hgen s4 hs4) fun s5 hs5 =>
            keeps_bind (htrk s5 hs5) fun s6 hs6 => hdsc s6 hs6

/-! ## Assembly lemmas -/

theorem assemble_eq (st : ExtractState) (t : String) (h : st.title = some t) :
    assemble st = .ok (mdOf st t) := by
  simp [assemble, h]

theorem assemble_err (st : ExtractState) (h : st.title = none) :
    assemble st = .error () := by
  simp [assemble, h]

theorem uniq_cons_ne_nil (x : LocalizedText) (l : List LocalizedText) :
    uniq (x :: l) ≠ [] := by
  simp [uniq, uniqAux]

theorem uniq_singleton (x : LocalizedText) : uniq [x] = [x] := by
  simp [uniq, uniqAux]

theorem mdOf_keys (st : ExtractState) (t : String) :
    (mdOf st t).map Prod.fst =
      ["title", "localized_title", "localized_description", "artist",
       "genre", "release_date", "track_list", "duration",
       "cover_image_url"] := rfl

theorem mdOf_lookup_title (st : ExtractState) (t : String) :
    List.lookup "title" (mdOf st t) =
      some (.vstr (if t ≠ "" then t else "Unknown Album")) := rfl

theorem mdOf_lookup_lt (st : ExtractState) (t : String) :
    List.lookup "localized_title" (mdOf st t) =
      some (.vlt (if st.localized_title ≠ [] then uniq st.localized_title
        else [⟨"en", "Unknown Album"⟩])) := rfl

theorem mdOf_lookup_ldesc (st : ExtractState) (t : String) :
    List.lookup "localized_description" (mdOf st t) =
      some (.vlt (uniq st.localized_desc)) := rfl

theorem mdOf_lookup_genre (st : ExtractState) (t : String) :
    List.lookup "genre" (mdOf st t) =
      some (.vlist (if st.genre ≠ [] then pySetList st.genre else [])) := rfl

theorem mdOf_lookup_release (st : ExtractState) (t : String) :
    List.lookup "release_date" (mdOf st t) =
      some (match st.release_date with
        | some d => .vstr d | none => .vnull) := rfl

theorem mdOf_lookup_track (st : ExtractState) (t : String) :
    List.lookup "track_list" (mdOf st t) =
      some (if st.track_list ≠ [] then .vstr (renderTracks st.track_list)
        else .vnull) := rfl

theorem mdOf_lookup_duration (st : ExtractState) (t : String) :
    List.lookup "duration" (mdOf st t) =
      some (if st.duration > 0 then .vint st.duration else .vnull) := rfl

/-! ## Characterization on documents whose queries do not raise -/

/-- The title derived from the two title queries, first non-empty match
winning, with the Unknown Album default. -/
def derivedTitle (ls : Query → List String) : String :=
  match ls Query.titleOg with
  | t :: _ => titleOfText t
  | [] =>
    match ls Query.pageTitle with
    | t :: _ => pyStrip t
    | [] => "Unknown Album"

/-- The artist list contributed by the title step. -/
def titleArtistOf : List String → List String
  | t :: _ => artistOfText [] t
  | [] => []

theorem step_image_pure (ls : Query → List String) (s : ExtractState) :
    step_image (pureDoc ls) s =
      .ok { s with image_url := imgUpd s.image_url (ls Query.imageOg) } :=
  step_image_eq _ _ _ rfl

theorem step_artist_pure (ls : Query → List String) (s : ExtractState) :
    step_artist (pureDoc ls) s =
      .ok { s with artist := artUpd s.artist (ls Query.artistQ) } :=
  step_artist_eq _ _ _ rfl

theorem step_date_pure (dparse : String → Option PyDate)
    (ls : Query → List String) (s : ExtractState) :
    step_date dparse (pureDoc ls) s =
      .ok { s with
        release_date := dateUpd dparse s.release_date (ls Query.dateQ) } :=
  step_date_eq _ _ _ _ rfl

theorem step_genre_pure (ls : Query → List String) (s : ExtractState) :
    step_genre (pureDoc ls) s =
      .ok { s with genre := genreUpd s.genre (ls Query.genreQ) } :=
  step_genre_eq _ _ _ rfl

theorem step_tracks_pure (ls : Query → List String) (s : ExtractState) :
    step_tracks (pureDoc ls) s =
      .ok { s with track_list := genreUpd s.track_list (ls Query.trackQ) } :=
  step_tracks_eq _ _ _ rfl

theorem step_desc_pure (ls : Query → List String) (s : ExtractState)
    (lang : String) (hl : s.lang = some lang) :
    step_desc (pureDoc ls) s =
      .ok { s with
        localized_desc := descUpd lang s.localized_desc (ls Query.descQ) } :=
  step_desc_eq _ _ _ _ rfl hl

/-- Full characterization of the extraction on a document none of whose
queries raises: the returned record, field by field. -/
theorem extract_pure (detect : String → String)
    (dparse : String → Option PyDate) (ls : Query → List String) :
    extract_from_html detect dparse (pureDoc ls) = .ok (mdOf
      { title := some (derivedTitle ls),
        lang := some (detect (derivedTitle ls)),
        localized_title := [⟨detect (derivedTitle ls), derivedTitle ls⟩],
        localized_desc := descUpd (detect (derivedTitle ls)) []
          (ls Query.descQ),
        artist := artUpd (titleArtistOf (ls Query.titleOg)) (ls Query.artistQ),
        genre := genreUpd [] (ls Query.genreQ),
        release_date := dateUpd dparse none (ls Query.dateQ),
        track_list := genreUpd [] (ls Query.trackQ),
        image_url := imgUpd none (ls Query.imageOg),
        duration := 0 } (derivedTitle ls)) := by
  unfold extract_from_html tryBody
  cases hT : ls Query.titleOg with
  | cons t ts =>
    rw [step_title_cons detect (pureDoc ls) initState t ts
      (by simp [pureDoc, hT])]
    simp only [ok_bind]
    rw [step_image_pure]
    simp only [ok_bind]
    rw [step_artist_pure]
    simp only [ok_bind]
    rw [step_date_pure]
    simp only [ok_bind]
    rw [step_genre_pure]
    simp only [ok_bind]
    rw [step_tracks_pure]
    simp only [ok_bind]
    rw [step_desc_pure ls _ (detect (titleOfText t)) (by simp)]
    show assemble _ = _
    rw [assemble_eq _ (titleOfText t) (by simp [outState])]
    simp [outState, derivedTitle, hT, titleArtistOf, initState]
  | nil =>
    cases hP : ls Query.pageTitle with
    | cons t ts =>
      rw [step_title_nilcons detect (pureDoc ls) initState t ts
        (by simp [pureDoc, hT]) (by simp [pureDoc, hP])]
      simp only [ok_bind]
      rw [step_image_pure]
      simp only [ok_bind]
      rw [step_artist_pure]
      simp only [ok_bind]
      rw [step_date_pure]
      simp only [ok_bind]
      rw [step_genre_pure]
      simp only [ok_bind]
      rw [step_tracks_pure]
      simp only [ok_bind]
      rw [step_desc_pure ls _ (detect (pyStrip t)) (by simp)]
      show assemble _ = _
      rw [assemble_eq _ (pyStrip t) (by simp [outState])]
      simp [outState, derivedTitle, hT, hP, titleArtistOf, initState]
    | nil =>
      rw [step_title_nilnil detect (pureDoc ls) initState
        (by simp [pureDoc, hT]) (by simp [pureDoc, hP])]
      simp only [ok_bind]
      rw [step_image_pure]
      simp only [ok_bind]
      rw [step_artist_pure]
      simp only [ok_bind]
      rw [step_date_pure]
      simp only [ok_bind]
      rw [step_genre_pure]
      simp only [ok_bind]
      rw [step_tracks_pure]
      simp only [ok_bind]
      rw [step_desc_pure ls _ (detect "Unknown Album") (by simp)]
      show assemble _ = _
      rw [assemble_eq _ "Unknown Album" (by simp [outState])]
      simp [outState, derivedTitle, hT, hP, titleArtistOf, initState]

/-! ## Claims about the release date and the track list -/

/-- The release-date value as the spec words it: join the trimmed
non-blank matched fragments with single spaces, parse permissively, format
the success as year-month-day, otherwise leave the field absent. -/
def releaseDateValue (dparse : String → Option PyDate)
    (es : List String) : Value :=
  if es ≠ [] then
    match dparse (String.intercalate " " (cleanList es)) with
    | some dt => .vstr (fmtDate dt)
    | none => .vnull
  else .vnull

/-- The track-list value as the spec words it: trim each match, discard
blanks, join with newlines under one-based ordinal prefixes. -/
def trackListValue (es : List String) : Value :=
  if cleanList es ≠ [] then .vstr (renderTracks (cleanList es)) else .vnull

theorem releaseDate_match (dparse : String → Option PyDate)
    (es : List String) :
    (match dateUpd dparse none es with
      | some d => Value.vstr d
      | none => Value.vnull) = releaseDateValue dparse es := by
  by_cases he : es ≠ []
  · unfold dateUpd releaseDateValue
    cases hd : dparse (String.intercalate " " (cleanList es)) <;> simp [he, hd]
  · unfold dateUpd releaseDateValue
    simp [he]

theorem track_match (es : List String) :
    (if genreUpd [] es ≠ [] then Value.vstr (renderTracks (genreUpd [] es))
      else Value.vnull) = trackListValue es := by
  by_cases he : es = []
  · subst he
    simp [genreUpd, trackListValue, cleanList]
  · have hg : genreUpd [] es = cleanList es := by simp [genreUpd, he]
    rw [hg, trackListValue]

/-- Claim C7: on a document whose queries do not raise, the release date
is the spec formula: join the trimmed non-blank date matches with single
spaces, parse permissively; on success the formatted date, on failure the
absent sentinel, never partial. -/
theorem c7_release_date (detect : String → String)
    (dparse : String → Option PyDate) (ls : Query → List String) :
    ∃ md, extract_from_html detect dparse (pureDoc ls) = .ok md ∧
      md.lookup "release_date" =
        some (releaseDateValue dparse (ls Query.dateQ)) := by
  refine ⟨_, extract_pure detect dparse ls, ?_⟩
  rw [mdOf_lookup_release]
  exact congrArg some (releaseDate_match dparse (ls Query.dateQ))

/-- Claim C8: on a document whose queries do not raise, the track list is
the trimmed non-blank matches joined with newlines under one-based ordinal
prefixes in document order; and the worked example of the claim. -/
theorem c8_track_list :
    (∀ (detect : String → String) (dparse : String → Option PyDate)
      (ls : Query → List String),
      ∃ md, extract_from_html detect dparse (pureDoc ls) = .ok md ∧
        md.lookup "track_list" =
          some (trackListValue (ls Query.trackQ))) ∧
    trackListValue ["Intro", "Song A", "Song B"] =
      .vstr "1. Intro\n2. Song A\n3. Song B" := by
  constructor
  · intro detect dparse ls
    refine ⟨_, extract_pure detect dparse ls, ?_⟩
    rw [mdOf_lookup_track]
    exact congrArg some (track_match (ls Query.trackQ))
  · rfl

/-! ## Claim about language tagging -/

/-- Claim C9 counterexample: a document with title TitleX and description
DescY, under a detector that answers en for TitleX and fr for everything
else.  The description entry carries en, the code detected from the title,
although the detector applied to the description text answers fr: the
description language is not detected from the description string. -/
theorem c9_counterexample :
    (fun s => if s = "TitleX" then "en" else "fr") "DescY" = "fr" ∧
    ∃ md, extract_from_html (fun s => if s = "TitleX" then "en" else "fr")
        (fun _ => none)
        (pureDoc fun q => match q with
          | Query.titleOg => ["TitleX"]
          | Query.descQ => ["DescY"]
          | _ => []) = .ok md ∧
      md.lookup "localized_description" =
        some (.vlt [⟨"en", "DescY"⟩]) :=
  ⟨rfl, _, rfl, rfl⟩

/-- Claim C9 as amended: the derived title is passed through language
detection and tagged with the resulting code; the derived description
entry reuses the code detected from the title, not one detected from the
description text. -/
theorem c9_amended_title_lang (detect : String → String)
    (dparse : String → Option PyDate) (ls : Query → List String)
    (t : String) (ts : List String) (d : String) (ds : List String)
    (h1 : ls Query.titleOg = t :: ts) (h2 : ls Query.descQ = d :: ds)
    (h3 : pyStrip d ≠ "") :
    ∃ md, extract_from_html detect dparse (pureDoc ls) = .ok md ∧
      md.lookup "localized_title" =
        some (.vlt [⟨detect (titleOfText t), titleOfText t⟩]) ∧
      md.lookup "localized_description" =
        some (.vlt [⟨detect (titleOfText t), pyStrip d⟩]) := by
  have hdt : derivedTitle ls = titleOfText t := by simp [derivedTitle, h1]
  refine ⟨_, extract_pure detect dparse ls, ?_, ?_⟩
  · rw [mdOf_lookup_lt]
    simp [hdt, uniq_singleton]
  · rw [mdOf_lookup_ldesc]
    simp [hdt, descUpd, h2, h3, uniq_singleton]

/-- Witness for the amended C9 at a concrete document and detector. -/
theorem c9_amended_title_lang_witness :
    ∃ md, extract_from_html (fun s => if s = "AB" then "en" else "fr")
        (fun _ => none)
        (pureDoc fun q => match q with
          | Query.titleOg => ["AB"]
          | Query.descQ => ["DD"]
          | _ => []) = .ok md ∧
      md.lookup "localized_title" = some (.vlt [⟨"en", "AB"⟩]) ∧
      md.lookup "localized_description" = some (.vlt [⟨"en", "DD"⟩]) :=
  c9_amended_title_lang (fun s => if s = "AB" then "en" else "fr")
    (fun _ => none)
    (fun q => match q with
      | Query.titleOg => ["AB"]
      | Query.descQ => ["DD"]
      | _ => [])
    "AB" [] "DD" [] rfl rfl (by decide)

/-! ## Claim C3: default title -/

/-- Claim C3: when neither the og:title query nor the page-title query
yields any match (and the detector tags the default English), the record's
localized title is exactly the single Unknown Album entry, whatever the
rest of the document does, raising included.  The detector value on the
default string is spec-modelled: detect_language is a collaborator outside
this module, and the spec calls the default a single English entry. -/
theorem c3_unknown_album_default (detect : String → String)
    (dparse : String → Option PyDate) (doc : Doc)
    (h1 : doc Query.titleOg = Except.ok [])
    (h2 : doc Query.pageTitle = Except.ok [])
    (hdet : detect "Unknown Album" = "en") :
    ∃ md, extract_from_html detect dparse doc = .ok md ∧
      md.lookup "localized_title" =
        some (.vlt [⟨"en", "Unknown Album"⟩]) := by
  have hP : (outState (tryBody detect dparse doc initState)).title =
        some "Unknown Album" ∧
      (outState (tryBody detect dparse doc initState)).localized_title =
        [(⟨"en", "Unknown Album"⟩ : LocalizedText)] := by
    apply keeps_tryBody (P := fun s => s.title = some "Unknown Album" ∧
      s.localized_title = [(⟨"en", "Unknown Album"⟩ : LocalizedText)])
    · rw [step_title_nilnil detect doc initState h1 h2]
      simp [outState, initState, hdet]
    · intro s hs; rw [frame_image]; simpa using hs
    · intro s hs; rw [frame_artist]; simpa using hs
    · intro s hs; rw [frame_date]; simpa using hs
    · intro s hs; rw [frame_genre]; simpa using hs
    · intro s hs; rw [frame_tracks]; simpa using hs
    · intro s hs; rw [frame_desc]; simpa using hs
  obtain ⟨ht, hlt⟩ := hP
  refine ⟨mdOf (outState (tryBody detect dparse doc initState))
    "Unknown Album", ?_, ?_⟩
  · rw [extract_from_html]
    exact assemble_eq _ _ ht
  · rw [mdOf_lookup_lt, hlt]
    simp [uniq_singleton]

/-- Witness for C3 at the document with no matches at all. -/
theorem c3_unknown_album_default_witness :
    ∃ md, extract_from_html (fun _ => "en") (fun _ => none)
        (pureDoc fun _ => []) = .ok md ∧
      md.lookup "localized_title" =
        some (.vlt [⟨"en", "Unknown Album"⟩]) :=
  c3_unknown_album_default (fun _ => "en") (fun _ => none)
    (pureDoc fun _ => []) rfl rfl rfl

/-! ## Claim C10: duration -/

/-- Claim C10: the duration accumulator is never incremented, so whenever
a record is returned its duration field is the absent sentinel. -/
theorem c10_duration_absent (detect : String → String)
    (dparse : String → Option PyDate) (doc : Doc) (md : Metadata)
    (h : extract_from_html detect dparse doc = .ok md) :
    md.lookup "duration" = some Value.vnull := by
  have hdur : (outState (tryBody detect dparse doc initState)).duration = 0 := by
    apply keeps_tryBody (P := fun s => s.duration = 0)
    · rw [frame_title]; simp [initState]
    · intro s hs; rw [frame_image]; simpa using hs
    · intro s hs; rw [frame_artist]; simpa using hs
    · intro s hs; rw [frame_date]; simpa using hs
    · intro s hs; rw [frame_genre]; simpa using hs
    · intro s hs; rw [frame_tracks]; simpa using hs
    · intro s hs; rw [frame_desc]; simpa using hs
  rw [extract_from_html] at h
  cases ht : (outState (tryBody detect dparse doc initState)).title with
  | none =>
    rw [assemble_err _ ht] at h
    simp at h
  | some t =>
    rw [assemble_eq _ t ht] at h
    injection h with h2
    rw [← h2, mdOf_lookup_duration, hdur]
    simp

/-- Witness for C10 at the document with no matches at all. -/
theorem c10_duration_absent_witness :
    List.lookup "duration"
      [("title", Value.vstr "Unknown Album"),
       ("localized_title", Value.vlt [⟨"en", "Unknown Album"⟩]),
       ("localized_description", Value.vlt []),
       ("artist", Value.vlist []),
       ("genre", Value.vlist []),
       ("release_date", Value.vnull),
       ("track_list", Value.vnull),
       ("duration", Value.vnull),
       ("cover_image_url", Value.vnull)] = some Value.vnull :=
  c10_duration_absent (fun _ => "en") (fun _ => none)
    (pureDoc fun _ => []) _ rfl

/-! ## Claim C5: record shape -/

/-- Claim C5: whenever a record is returned, its keys are exactly the nine
fixed keys in order (none omitted, each carrying its value or its
empty/absent sentinel), and the localized title is non-empty. -/
theorem c5_record_shape (detect : String → String)
    (dparse : String → Option PyDate) (doc : Doc) (md : Metadata)
    (h : extract_from_html detect dparse doc = .ok md) :
    md.map Prod.fst =
      ["title", "localized_title", "localized_description", "artist",
       "genre", "release_date", "track_list", "duration",
       "cover_image_url"] ∧
    ∃ l, md.lookup "localized_title" = some (.vlt l) ∧ l ≠ [] := by
  rw [extract_from_html] at h
  cases ht : (outState (tryBody detect dparse doc initState)).title with
  | none =>
    rw [assemble_err _ ht] at h
    simp at h
  | some t =>
    rw [assemble_eq _ t ht] at h
    injection h with h2
    subst h2
    refine ⟨mdOf_keys _ _, ?_⟩
    rw [mdOf_lookup_lt]
    cases hlt : (outState (tryBody detect dparse doc initState)).localized_title with
    | nil =>
      exact ⟨[⟨"en", "Unknown Album"⟩], by simp, by simp⟩
    | cons x xs =>
      exact ⟨uniq (x :: xs), by simp, uniq_cons_ne_nil x xs⟩

/-- Witness for C5 at the document with no matches at all. -/
theorem c5_record_shape_witness :
    ([("title", Value.vstr "Unknown Album"),
      ("localized_title", Value.vlt [⟨"en", "Unknown Album"⟩]),
      ("localized_description", Value.vlt []),
      ("artist", Value.vlist []),
      ("genre", Value.vlist []),
      ("release_date", Value.vnull),
      ("track_list", Value.vnull),
      ("duration", Value.vnull),
      ("cover_image_url", Value.vnull)] : Metadata).map Prod.fst =
      ["title", "localized_title", "localized_description", "artist",
       "genre", "release_date", "track_list", "duration",
       "cover_image_url"] ∧
    ∃ l, List.lookup "localized_title"
      ([("title", Value.vstr "Unknown Album"),
        ("localized_title", Value.vlt [⟨"en", "Unknown Album"⟩]),
        ("localized_description", Value.vlt []),
        ("artist", Value.vlist []),
        ("genre", Value.vlist []),
        ("release_date", Value.vnull),
        ("track_list", Value.vnull),
        ("duration", Value.vnull),
        ("cover_image_url", Value.vnull)] : Metadata) =
      some (.vlt l) ∧ l ≠ [] :=
  c5_record_shape (fun _ => "en") (fun _ => none) (pureDoc fun _ => []) _ rfl

/-! ## Claim C1: error propagation out of the extraction call -/

/-- Claim C1 evaluated at the failing input: on a document whose og:title
query raises, the except block catches the error, but the title local was
never assigned, so reading it while building the metadata raises a
NameError outside any try block and the extraction call fails instead of
returning a record. -/
theorem c1_unbound_title_failure :
    extract_from_html (fun _ => "en") (fun _ => none)
      (fun q => match q with
        | Query.titleOg => Except.error ()
        | _ => Except.ok []) = Except.error () := rfl

/-! ## Claim C4: per-field isolation -/

/-- Claim C4 counterexample: the date query raises while the genre query
matches Jazz; the single try block aborts at the date step, so the genre
field of the returned record is empty although its own query succeeded:
a failure in one field does prevent later fields from being populated. -/
theorem c4_counterexample :
    ((fun q => match q with
      | Query.titleOg => Except.ok ["A - B"]
      | Query.genreQ => Except.ok ["Jazz"]
      | Query.dateQ => Except.error ()
      | _ => Except.ok []) : Doc) Query.genreQ =
        Except.ok ["Jazz"] ∧
    ∃ md, extract_from_html (fun _ => "en") (fun _ => none)
        (fun q => match q with
          | Query.titleOg => Except.ok ["A - B"]
          | Query.genreQ => Except.ok ["Jazz"]
          | Query.dateQ => Except.error ()
          | _ => Except.ok []) = .ok md ∧
      md.lookup "genre" = some (.vlist []) :=
  ⟨rfl, _, rfl, rfl⟩

/-- Claim C4 as amended: a failure while extracting one field keeps the
fields extracted before it and still yields a record (provided a title was
derived first), but that field and every later field degrade to their
empty/absent sentinels: the failure boundary is the whole sequence, not
one field.  Stated for a raise at the date step. -/
theorem c4_amended_single_boundary (detect : String → String)
    (dparse : String → Option PyDate) (doc : Doc) (t : String)
    (ts : List String) (ims : List String) (as : List String)
    (h1 : doc Query.titleOg = Except.ok (t :: ts))
    (h2 : doc Query.imageOg = Except.ok ims)
    (h3 : doc Query.artistQ = Except.ok as)
    (h4 : doc Query.dateQ = Except.error ()) :
    ∃ md, extract_from_html detect dparse doc = .ok md ∧
      md.lookup "localized_title" =
        some (.vlt [⟨detect (titleOfText t), titleOfText t⟩]) ∧
      md.lookup "release_date" = some Value.vnull ∧
      md.lookup "genre" = some (.vlist []) ∧
      md.lookup "track_list" = some Value.vnull ∧
      md.lookup "localized_description" = some (.vlt []) := by
  unfold extract_from_html tryBody
  rw [step_title_cons detect doc initState t ts h1]
  simp only [ok_bind]
  rw [step_image_eq doc _ ims h2]
  simp only [ok_bind]
  rw [step_artist_eq doc _ as h3]
  simp only [ok_bind]
  rw [step_date_err dparse doc _ () h4]
  simp only [err_bind]
  show ∃ md, assemble _ = .ok md ∧ _
  rw [assemble_eq _ (titleOfText t) (by simp [outState])]
  refine ⟨_, rfl, ?_, ?_, ?_, ?_, ?_⟩
  · rw [mdOf_lookup_lt]
    simp [outState, initState, uniq_singleton]
  · rw [mdOf_lookup_release]
    simp [outState, initState]
  · rw [mdOf_lookup_genre]
    simp [outState, initState]
  · rw [mdOf_lookup_track]
    simp [outState, initState]
  · rw [mdOf_lookup_ldesc]
    simp [outState, initState, uniq, uniqAux]

/-- Witness for the amended C4 at a concrete document. -/
theorem c4_amended_single_boundary_witness :
    ∃ md, extract_from_html (fun _ => "en") (fun _ => none)
        (fun q => match q with
          | Query.titleOg => Except.ok ["A - B"]
          | Query.genreQ => Except.ok ["Jazz"]
          | Query.dateQ => Except.error ()
          | _ => Except.ok []) = .ok md ∧
      md.lookup "localized_title" = some (.vlt [⟨"en", "B"⟩]) ∧
      md.lookup "release_date" = some Value.vnull ∧
      md.lookup "genre" = some (.vlist []) ∧
      md.lookup "track_list" = some Value.vnull ∧
      md.lookup "localized_description" = some (.vlt []) :=
  c4_amended_single_boundary (fun _ => "en") (fun _ => none)
    (fun q => match q with
      | Query.titleOg => Except.ok ["A - B"]
      | Query.genreQ => Except.ok ["Jazz"]
      | Query.dateQ => Except.error ()
      | _ => Except.ok [])
    "A - B" [] [] [] rfl rfl rfl rfl

/-! ## Claim C6: blank matches and candidate fallthrough -/

theorem isPref_drop (pat : List Char) :
    ∀ l, isPref pat l = true → l = pat ++ l.drop pat.length := by
  induction pat with
  | nil => intro l _; simp
  | cons a as ih =>
    intro l h
    cases l with
    | nil => simp [isPref] at h
    | cons b bs =>
      simp only [isPref, Bool.and_eq_true, beq_iff_eq] at h
      obtain ⟨hab, hpref⟩ := h
      subst hab
      rw [List.length_cons, List.drop_succ_cons, List.cons_append]
      exact congrArg (List.cons a) (ih bs hpref)

theorem splitFirst_append (pat : List Char) :
    ∀ (l pre post : List Char), splitFirst pat l = some (pre, post) →
      l = pre ++ pat ++ post := by
  intro l
  induction l with
  | nil => intro pre post h; simp [splitFirst] at h
  | cons c cs ih =>
    intro pre post h
    cases hp : isPref pat (c :: cs) with
    | true =>
      have hd := isPref_drop pat (c :: cs) hp
      simp only [splitFirst, hp, if_true, Option.some.injEq,
        Prod.mk.injEq] at h
      obtain ⟨h3, h4⟩ := h
      subst h3
      subst h4
      simpa using hd
    | false =>
      simp only [splitFirst, hp, Bool.false_eq_true, if_false] at h
      cases hs : splitFirst pat cs with
      | none => rw [hs] at h; simp at h
      | some p =>
        rw [hs] at h
        simp only [Option.some.injEq, Prod.mk.injEq] at h
        obtain ⟨h3, h4⟩ := h
        subst h3
        subst h4
        have hcs := ih p.1 p.2 (by rw [hs])
        simp [hcs]

theorem stripChars_nil_ws {l : List Char} (h : stripChars l = []) :
    ∀ c ∈ l, pyWs c = true := by
  unfold stripChars at h
  rw [List.reverse_eq_nil_iff, List.dropWhile_eq_nil_iff] at h
  intro c hc
  have hsplit : c ∈ l.takeWhile pyWs ++ l.dropWhile pyWs := by
    rw [List.takeWhile_append_dropWhile]
    exact hc
  rcases List.mem_append.mp hsplit with h1 | h2
  · exact List.mem_takeWhile_imp h1
  · exact h c (List.mem_reverse.mpr h2)

/-- A string that strips to blank cannot contain the dash separator, so
the artist-title split never fires on it. -/
theorem pySplitOnce_sep_blank (s : String) (h : pyStrip s = "") :
    pySplitOnce " - " s = none := by
  have hl : stripChars s.data = [] := congrArg String.data h
  have hws := stripChars_nil_ws hl
  cases hsp : pySplitOnce " - " s with
  | none => rfl
  | some p =>
    exfalso
    unfold pySplitOnce at hsp
    cases hsf : splitFirst (" - ").data s.data with
    | none => rw [hsf] at hsp; simp at hsp
    | some q =>
      have heq := splitFirst_append (" - ").data s.data q.1 q.2 (by rw [hsf])
      have hdash : '-' ∈ (" - ").data := by decide
      have hmem : '-' ∈ s.data := by
        rw [heq]
        simp [List.mem_append, hdash]
      exact absurd (hws '-' hmem) (by decide)

theorem titleOfText_blank (s : String) (h : pyStrip s = "") :
    titleOfText s = "" := by
  unfold titleOfText
  rw [pySplitOnce_sep_blank s h]
  exact h

theorem artistOfText_blank (old : List String) (s : String)
    (h : pyStrip s = "") : artistOfText old s = old := by
  unfold artistOfText
  rw [pySplitOnce_sep_blank s h]

/-- Claim C6 counterexample: the og:title query matches one blank string
while the page-title query matches Real Title.  The blank candidate is
still selected: the record title defaults to Unknown Album and the
localized title keeps an empty text, instead of falling through to the
page-title value. -/
theorem c6_counterexample :
    ((fun q => match q with
      | Query.titleOg => Except.ok [" "]
      | Query.pageTitle => Except.ok ["Real Title"]
      | _ => Except.ok []) : Doc) Query.pageTitle =
        Except.ok ["Real Title"] ∧
    ∃ md, extract_from_html (fun _ => "en") (fun _ => none)
        (fun q => match q with
          | Query.titleOg => Except.ok [" "]
          | Query.pageTitle => Except.ok ["Real Title"]
          | _ => Except.ok []) = .ok md ∧
      md.lookup "title" = some (.vstr "Unknown Album") ∧
      md.lookup "localized_title" = some (.vlt [⟨"en", ""⟩]) ∧
      md.lookup "title" ≠ some (.vstr "Real Title") :=
  ⟨rfl, _, rfl, rfl, rfl, by decide⟩

/-- Claim C6 as amended: a candidate query is skipped only when it returns
no matches at all; a first og:title match that is blank after trimming is
still selected, the derived title is the empty string, no fallback to the
page-title query occurs, the record title defaults to Unknown Album at
assembly, and the localized title keeps an entry with empty text. -/
theorem c6_amended_blank_selected (detect : String → String)
    (dparse : String → Option PyDate) (doc : Doc) (s : String)
    (ts : List String) (h1 : doc Query.titleOg = Except.ok (s :: ts))
    (hb : pyStrip s = "") :
    ∃ md, extract_from_html detect dparse doc = .ok md ∧
      md.lookup "title" = some (.vstr "Unknown Album") ∧
      md.lookup "localized_title" = some (.vlt [⟨detect "", ""⟩]) := by
  have hto := step_title_cons detect doc initState s ts h1
  rw [titleOfText_blank s hb, artistOfText_blank _ s hb] at hto
  have hP : (outState (tryBody detect dparse doc initState)).title =
        some "" ∧
      (outState (tryBody detect dparse doc initState)).localized_title =
        [(⟨detect "", ""⟩ : LocalizedText)] := by
    apply keeps_tryBody (P := fun st => st.title = some "" ∧
      st.localized_title = [(⟨detect "", ""⟩ : LocalizedText)])
    · rw [hto]
      simp [outState, initState]
    · intro s2 hs; rw [frame_image]; simpa using hs
    · intro s2 hs; rw [frame_artist]; simpa using hs
    · intro s2 hs; rw [frame_date]; simpa using hs
    · intro s2 hs; rw [frame_genre]; simpa using hs
    · intro s2 hs; rw [frame_tracks]; simpa using hs
    · intro s2 hs; rw [frame_desc]; simpa using hs
  obtain ⟨ht, hlt⟩ := hP
  refine ⟨mdOf (outState (tryBody detect dparse doc initState)) "", ?_, ?_, ?_⟩
  · rw [extract_from_html]
    exact assemble_eq _ _ ht
  · rw [mdOf_lookup_title]
    simp
  · rw [mdOf_lookup_lt, hlt]
    simp [uniq_singleton]

/-- Witness for the amended C6: blank og:title next to a matching page
title yields Unknown Album, not the page title. -/
theorem c6_amended_blank_selected_witness :
    ∃ md, extract_from_html (fun _ => "en") (fun _ => none)
        (fun q => match q with
          | Query.titleOg => Except.ok ["  "]
          | Query.pageTitle => Except.ok ["Page Title"]
          | _ => Except.ok []) = .ok md ∧
      md.lookup "title" = some (.vstr "Unknown Album") ∧
      md.lookup "localized_title" = some (.vlt [⟨"en", ""⟩]) :=
  c6_amended_blank_selected (fun _ => "en") (fun _ => none)
    (fun q => match q with
      | Query.titleOg => Except.ok ["  "]
      | Query.pageTitle => Except.ok ["Page Title"]
      | _ => Except.ok [])
    "  " [] rfl rfl

end RYM
